import Mathlib

/-!
Verification development for the sentinel-AI event pipeline.

Each section shallowly embeds one part of the Python source:

* `qdrant_logic.py` : `_hash_id`, `upsert_event`, `list_ranked_events`
* `ranker/main.py`  : `calculate_importance_score`, `calculate_recency_score`,
  the final-score combination of `filtered_event_handler`
* `connector/main.py` : the scrape filter and `poll_source_event_handler`
* `filter/main.py`  : the ack/nak control flow of `raw_event_handler`
* `scheduler/main.py` : `_publish_poll_event`
* `guardian/guardian_service.py` and `guardian/main.py` : the two DLQ handlers

Machine integers are modelled as `Nat` with explicit reduction mod `2 ^ 32`
where the SHA-256 rounds overflow; Python strings are modelled as `String`
(or `List Char` where slicing matters); fallible calls are modelled as
explicit outcome parameters; monetary-free float arithmetic of the ranker is
modelled over `ℝ`, payload scores over `ℚ`.
-/

/-! ## SHA-256 (hashlib.sha256), byte-level, Nat arithmetic mod 2^32 -/

/-- Reduce a natural number to a 32-bit word, as Python `hashlib` words. -/
def w32 (x : Nat) : Nat := x % 4294967296

/-- Right rotation of a 32-bit word by `n` bits. -/
def rotr (n x : Nat) : Nat := w32 ((x >>> n) ||| (x <<< (32 - n)))

/-- The 64 SHA-256 round constants. -/
def sha256K : List Nat :=
  [1116352408, 1899447441, 3049323471, 3921009573, 961987163,
   1508970993, 2453635748, 2870763221, 3624381080, 310598401,
   607225278, 1426881987, 1925078388, 2162078206, 2614888103,
   3248222580, 3835390401, 4022224774, 264347078, 604807628,
   770255983, 1249150122, 1555081692, 1996064986, 2554220882,
   2821834349, 2952996808, 3210313671, 3336571891, 3584528711,
   113926993, 338241895, 666307205, 773529912, 1294757372,
   1396182291, 1695183700, 1986661051, 2177026350, 2456956037,
   2730485921, 2820302411, 3259730800, 3345764771, 3516065817,
   3600352804, 4094571909, 275423344, 430227734, 506948616,
   659060556, 883997877, 958139571, 1322822218, 1537002063,
   1747873779, 1955562222, 2024104815, 2227730452, 2361852424,
   2428436474, 2756734187, 3204031479, 3329325298]

/-- Big-endian 8-byte encoding of the message bit-length. -/
def beBytes8 (n : Nat) : List Nat :=
  [(n >>> 56) &&& 255, (n >>> 48) &&& 255, (n >>> 40) &&& 255, (n >>> 32) &&& 255,
   (n >>> 24) &&& 255, (n >>> 16) &&& 255, (n >>> 8) &&& 255, n &&& 255]

/-- SHA-256 padding: append 0x80, zero bytes to 56 mod 64, then the bit length. -/
def sha256Pad (msg : List Nat) : List Nat :=
  let len := msg.length
  msg ++ [128] ++ List.replicate ((119 - len % 64) % 64) 0 ++ beBytes8 (len * 8)

/-- Split a byte list into 64-byte chunks; the fuel argument bounds the
recursion and is passed as the list length, which always suffices. -/
def toChunksFuel : Nat → List Nat → List (List Nat)
  | 0, _ => []
  | _, [] => []
  | fuel + 1, l => l.take 64 :: toChunksFuel fuel (l.drop 64)

/-- Split a padded message into its 64-byte chunks. -/
def toChunks (l : List Nat) : List (List Nat) := toChunksFuel l.length l

/-- Pack bytes into big-endian 32-bit words. -/
def bytesToWords : List Nat → List Nat
  | a :: b :: c :: d :: rest => ((a <<< 24) ||| (b <<< 16) ||| (c <<< 8) ||| d) :: bytesToWords rest
  | _ => []

/-- Extend the 16-word block to the 64-word message schedule. -/
def extendW (w0 : Array Nat) : Array Nat :=
  (List.range 48).foldl (fun w i =>
    let j := i + 16
    let x15 := w.getD (j - 15) 0
    let x2 := w.getD (j - 2) 0
    let s0 := rotr 7 x15 ^^^ rotr 18 x15 ^^^ (x15 >>> 3)
    let s1 := rotr 17 x2 ^^^ rotr 19 x2 ^^^ (x2 >>> 10)
    w.push (w32 (w.getD (j - 16) 0 + s0 + w.getD (j - 7) 0 + s1))) w0

/-- The eight 32-bit working variables of the SHA-256 compression loop. -/
structure Sha256State where
  a : Nat
  b : Nat
  c : Nat
  d : Nat
  e : Nat
  f : Nat
  g : Nat
  h : Nat

/-- The SHA-256 initial hash value. -/
def sha256Init : Sha256State :=
  ⟨1779033703, 3144134277, 1013904242, 2773480762,
   1359893119, 2600822924, 528734635, 1541459225⟩

/-- One SHA-256 round; `kw` is the round constant plus the schedule word. -/
def sha256Round (st : Sha256State) (kw : Nat) : Sha256State :=
  let s1 := rotr 6 st.e ^^^ rotr 11 st.e ^^^ rotr 25 st.e
  let ch := (st.e &&& st.f) ^^^ ((st.e ^^^ 4294967295) &&& st.g)
  let t1 := w32 (st.h + s1 + ch + kw)
  let s0 := rotr 2 st.a ^^^ rotr 13 st.a ^^^ rotr 22 st.a
  let mj := (st.a &&& st.b) ^^^ (st.a &&& st.c) ^^^ (st.b &&& st.c)
  let t2 := w32 (s0 + mj)
  ⟨w32 (t1 + t2), st.a, st.b, st.c, w32 (st.d + t1), st.e, st.f, st.g⟩

/-- Compress one 64-byte chunk into the running hash state. -/
def sha256Compress (hs : Sha256State) (chunk : List Nat) : Sha256State :=
  let w := extendW (bytesToWords chunk).toArray
  let st := (List.range 64).foldl
    (fun st i => sha256Round st (sha256K.getD i 0 + w.getD i 0)) hs
  ⟨w32 (hs.a + st.a), w32 (hs.b + st.b), w32 (hs.c + st.c), w32 (hs.d + st.d),
   w32 (hs.e + st.e), w32 (hs.f + st.f), w32 (hs.g + st.g), w32 (hs.h + st.h)⟩

/-- Big-endian 4-byte encoding of a 32-bit word. -/
def wordBE (n : Nat) : List Nat :=
  [(n >>> 24) &&& 255, (n >>> 16) &&& 255, (n >>> 8) &&& 255, n &&& 255]

/-- SHA-256 digest of a byte list, as 32 bytes. -/
def sha256Bytes (msg : List Nat) : List Nat :=
  let hf := (toChunks (sha256Pad msg)).foldl sha256Compress sha256Init
  wordBE hf.a ++ wordBE hf.b ++ wordBE hf.c ++ wordBE hf.d ++
  wordBE hf.e ++ wordBE hf.f ++ wordBE hf.g ++ wordBE hf.h

/-! ## Hex formatting and the physical key (`_hash_id`) -/

/-- Lower-case hex digit, as produced by Python `hexdigest`. -/
def hexDigit (n : Nat) : Char := if n < 10 then Char.ofNat (48 + n) else Char.ofNat (87 + n)

/-- Two hex characters of one byte. -/
def hexByte (b : Nat) : List Char := [hexDigit (b / 16), hexDigit (b % 16)]

/-- Hex characters of a byte list: the `hexdigest` of the digest bytes. -/
def hexChars : List Nat → List Char
  | [] => []
  | b :: rest => hexByte b ++ hexChars rest

/-- UTF-8 bytes of a Python string, as `event_id.encode` produces. -/
def utf8Bytes (s : String) : List Nat := s.toUTF8.toList.map UInt8.toNat

/-- `QdrantLogic._hash_id`: SHA-256 hexdigest of the UTF-8 id, sliced into the
hyphenated groups `[0:8] [8:12] [12:16] [16:20] [20:32]`.  The Python string is
modelled as a `List Char` so that the slice positions are explicit. -/
def hashId (eventId : String) : List Char :=
  let hx := hexChars (sha256Bytes (utf8Bytes eventId))
  hx.take 8 ++ ['-'] ++ (hx.drop 8).take 4 ++ ['-'] ++ (hx.drop 12).take 4 ++ ['-'] ++
    (hx.drop 16).take 4 ++ ['-'] ++ (hx.drop 20).take 12

/-- Modelled from the spec: take the first 16 bytes of the SHA-256 hash of the
UTF-8 encoding of `original_id` and format them as a canonical hyphenated
128-bit identifier (hex digit groups of 8-4-4-4-12).  This is the second
definition of the physical key, written from the words of the spec, to be
compared with `hashId`, which is written from the source. -/
def specPhysicalKey (originalId : String) : List Char :=
  let hx := hexChars ((sha256Bytes (utf8Bytes originalId)).take 16)
  hx.take 8 ++ ['-'] ++ (hx.drop 8).take 4 ++ ['-'] ++ (hx.drop 12).take 4 ++ ['-'] ++
    (hx.drop 16).take 4 ++ ['-'] ++ hx.drop 20

/-! ## `upsert_event` (qdrant_logic.py, lines 312-394)

The Qdrant server, the embedding model and the event loop are external
collaborators; their outcomes enter as parameters.  `encode` stands for
`self.model.encode`, `vectorSize` for `self.vector_size`.  `upsertOk` is true
when `client.upsert(..., wait=True)` returns without raising (server ack);
`SetPayloadOutcome` is the result of `client.set_payload(..., wait=True)`;
`stubOk` is the ack of the fall-back stub upsert.  The function returns the
Python return value together with the list of server-confirmed writes. -/

/-- An `event_data` dict as far as `upsert_event` inspects it: the `id` and
`content` fields.  The remaining payload fields are carried through opaquely
and are not modelled. -/
structure UpsertInput where
  id : Option String
  content : Option String
deriving DecidableEq

/-- A server-confirmed write performed by `upsert_event`.  A full or stub
write stores `payload ++ original_id` under the physical key; a payload patch
(`set_payload`) touches no vector and adds no `original_id` field. -/
inductive WriteAction where
  | fullWrite (key : List Char) (vector : List ℚ) (originalId : String)
  | payloadPatch (key : List Char)
  | stubWrite (key : List Char) (vector : List ℚ) (originalId : String)
deriving DecidableEq

/-- Outcome of `client.set_payload`: `completed` when the update status is
COMPLETED (the record exists and the patch is acked), `otherStatus` for any
other reported status, `raised` when the call raises (typically a 404 because
the point does not exist). -/
inductive SetPayloadOutcome where
  | completed
  | otherStatus
  | raised
deriving DecidableEq

/-- The guard `if not event_id or event_id == 'N/A'` of `upsert_event`:
`event_data.get('id', 'N/A')` with Python string truthiness. -/
def validEventId (ev : UpsertInput) : Option String :=
  let eid := ev.id.getD "N/A"
  if eid = "" ∨ eid = "N/A" then none else some eid

/-- The test `'content' in event_data and event_data['content']`. -/
def hasContent (ev : UpsertInput) : Bool :=
  match ev.content with
  | some c => decide (c ≠ "")
  | none => false

/-- The payload-only branch of `upsert_event`: try `set_payload`; on a
non-COMPLETED status or an exception fall through to a stub upsert whose
vector is `[0.0] * self.vector_size`. -/
def upsertPatchPath (key : List Char) (eid : String) (vectorSize : Nat)
    (sp : SetPayloadOutcome) (stubOk : Bool) : Bool × List WriteAction :=
  match sp with
  | .completed => (true, [.payloadPatch key])
  | _ =>
    if stubOk then (true, [.stubWrite key (List.replicate vectorSize 0) eid]) else (false, [])

/-- `QdrantLogic.upsert_event`.  An exception anywhere inside the outer `try`
is caught and turned into `False` with no confirmed write. -/
def upsertEvent (encode : String → List ℚ) (vectorSize : Nat) (ev : UpsertInput)
    (upsertOk : Bool) (sp : SetPayloadOutcome) (stubOk : Bool) : Bool × List WriteAction :=
  match validEventId ev with
  | none => (false, [])
  | some eid =>
    let key := hashId eid
    match ev.content with
    | some c =>
      if c = "" then upsertPatchPath key eid vectorSize sp stubOk
      else if upsertOk then (true, [.fullWrite key (encode c) eid]) else (false, [])
    | none => upsertPatchPath key eid vectorSize sp stubOk

/-! ## `list_ranked_events` (qdrant_logic.py, lines 153-179)

The collection state is the list of stored payloads in scroll order; a scroll
with a filter and a limit returns the first `limit` payloads satisfying the
filter.  Scores are modelled over `ℚ`.  The server-side filter is
`FieldCondition(key="final_score", range=Range(gte=0))`; the client then sorts
by `p.get("final_score", 0)` descending with Python's stable sort, modelled by
`List.insertionSort` of the reflexive descending-score relation. -/

/-- A stored payload as far as `list_ranked_events` inspects it. -/
structure StoredRecord where
  originalId : String
  finalScore : Option ℚ
deriving DecidableEq

/-- The server-side scroll filter `final_score >= 0`: a record matches only
when the field is present and non-negative. -/
def rankedFilter (p : StoredRecord) : Bool :=
  match p.finalScore with
  | some x => decide (0 ≤ x)
  | none => false

/-- The client-side sort key `p.get("final_score", 0)`. -/
def scoreKey (p : StoredRecord) : ℚ := p.finalScore.getD 0

/-- Descending order of sort keys, the comparison of `sort(..., reverse=True)`. -/
def scoreGE (p q : StoredRecord) : Prop := scoreKey q ≤ scoreKey p

instance : DecidableRel scoreGE :=
  fun p q => inferInstanceAs (Decidable (scoreKey q ≤ scoreKey p))

instance : IsTotal StoredRecord scoreGE :=
  ⟨fun p q => le_total (scoreKey q) (scoreKey p)⟩

instance : IsTrans StoredRecord scoreGE :=
  ⟨fun _ _ _ h1 h2 => le_trans h2 h1⟩

/-- `QdrantLogic.list_ranked_events` over a collection in scroll order. -/
def listRankedEvents (coll : List StoredRecord) (limit : Nat) : List StoredRecord :=
  List.insertionSort scoreGE ((coll.filter rankedFilter).take limit)

/-! ## Ranker scoring (ranker/main.py, lines 61-102)

Configuration comes from `ranker_config.yaml`.  Real arithmetic models the
float arithmetic of the source; `Real.rpow` models Python `0.5 ** x`.  The
parse of `datetime.fromisoformat` is modelled by an `Option ℝ` event time:
`none` is the `ValueError` branch, in which the source sets `event_time` to
`datetime.utcnow()`; the two consecutive `utcnow()` reads of the source are
modelled as the single instant `now`. -/

/-- The ranker configuration surface used by the scoring functions. -/
structure RankerConfig where
  importanceWeight : ℝ
  recencyWeight : ℝ
  categoryScores : List (String × ℝ)
  halfLifeHours : ℝ
  maxScore : ℝ

/-- The fallback `CATEGORY_IMPORTANCE_SCORES['Other']`; the YAML table is
required to carry an `Other` key, so theorems take its presence as a
hypothesis where it matters. -/
def otherScore (cfg : RankerConfig) : ℝ := (List.lookup "Other" cfg.categoryScores).getD 0

/-- `calculate_importance_score`: sum of per-category weights with the
`Other` fallback for unknown categories. -/
def calculateImportanceScore (cfg : RankerConfig) (categories : List String) : ℝ :=
  categories.foldl (fun s c => s + ((List.lookup c cfg.categoryScores).getD (otherScore cfg))) 0

/-- `RECENCY_DECAY['half_life_hours'] * 3600`. -/
def halfLifeSeconds (cfg : RankerConfig) : ℝ := cfg.halfLifeHours * 3600

/-- `calculate_recency_score`: exponential decay
`max_score * 0.5 ** (time_diff_seconds / half_life_seconds)` with the
parse-failure fallback `event_time = now`. -/
noncomputable def calculateRecencyScore (cfg : RankerConfig) (now : ℝ) (parsedTs : Option ℝ) : ℝ :=
  let eventTime := parsedTs.getD now
  let timeDiff := now - eventTime
  cfg.maxScore * ((1 / 2 : ℝ) ^ (timeDiff / halfLifeSeconds cfg) : ℝ)

/-- Steps 1-3 of `filtered_event_handler`: importance, recency and the final
weighted combination. -/
noncomputable def rankEventScores (cfg : RankerConfig) (now : ℝ) (categories : List String)
    (parsedTs : Option ℝ) : ℝ × ℝ × ℝ :=
  let imp := calculateImportanceScore cfg categories
  let recency := calculateRecencyScore cfg now parsedTs
  (imp, recency, cfg.importanceWeight * imp + cfg.recencyWeight * recency)

/-! ## Connector (connector/main.py, lines 70-145)

`_scrape_links` keeps anchors with `len(text) > 25` and `href.startswith
("http")`.  The handler then runs two passes over the kept links inside one
DB session: the first pass inserts every unseen `(source_id, href)` pair and
commits once; the second pass publishes a `RawEvent` for every link whose
pair is *not* in the table — re-querying the table after the commit.  The
dedup table is modelled as a list of pairs in insertion order; the freshly
generated `uuid4` id and the `utcnow` timestamp are external and left out of
the modelled event. -/

/-- A scraped `(title, href)` candidate. -/
structure ScrapedLink where
  title : String
  href : String
deriving DecidableEq

/-- The fields of an emitted `RawEvent` that the handler computes itself. -/
structure ConnRawEvent where
  title : String
  content : String
  source : String
deriving DecidableEq

/-- Whether `pat` is a leading segment of `l`; `href.startswith` and the
substring tests below are modelled over character lists. -/
def leadsWith : List Char → List Char → Bool
  | [], _ => true
  | _ :: _, [] => false
  | p :: ps, h :: hs => p = h && leadsWith ps hs

/-- The candidate filter of `_scrape_links`. -/
def scrapeFilter (cands : List ScrapedLink) : List ScrapedLink :=
  cands.filter (fun l => decide (25 < l.title.length) && leadsWith "http".data l.href.data)

/-- First pass: insert every unseen pair, then commit (the fold result is the
committed table). -/
def insertPhase (sid : Nat) (table : List (Nat × String)) (links : List ScrapedLink) :
    List (Nat × String) :=
  links.foldl (fun t l => if (sid, l.href) ∈ t then t else t ++ [(sid, l.href)]) table

/-- Second pass: publish for the links whose pair is absent from the table
the pass reads — which is the committed table of the first pass. -/
def publishPhase (sid : Nat) (srcName : String) (table : List (Nat × String))
    (links : List ScrapedLink) : List ConnRawEvent :=
  (links.filter (fun l => decide ((sid, l.href) ∉ table))).map
    (fun l => ⟨l.title.take 200, l.title, srcName⟩)

/-- `poll_source_event_handler` per message, after URL resolution: returns the
committed dedup table and the published raw events. -/
def pollSourceHandler (sid : Nat) (srcName : String) (table : List (Nat × String))
    (cands : List ScrapedLink) : List (Nat × String) × List ConnRawEvent :=
  let links := scrapeFilter cands
  let t2 := insertPhase sid table links
  (t2, publishPhase sid srcName t2 links)

/-! ## Filter worker ack/nak control flow (filter/main.py, lines 93-155)

External outcomes enter as parameters: `decodeOk` for `ParseFromString`,
`relevance` and `category` for the two LLM completions (`none` models a
raised exception), `storeOk` for the Boolean that `upsert_event` returns
(that call swallows its own exceptions and never raises), and `publishOk`
for the publish.  Python `.upper()` is modelled for ASCII letters. -/

/-- Handler outcome: exactly one of `ack` and `nak` is issued. -/
inductive AckResult where
  | ack
  | nak
deriving DecidableEq

/-- ASCII upper-casing of one character, as Python `str.upper` on ASCII. -/
def upChar (c : Char) : Char :=
  if 97 ≤ c.toNat ∧ c.toNat ≤ 122 then Char.ofNat (c.toNat - 32) else c

/-- Python substring containment `pat in s` over character lists. -/
def containsPat (pat : List Char) : List Char → Bool
  | [] => pat.isEmpty
  | h :: hs => leadsWith pat (h :: hs) || containsPat pat hs

/-- The relevance test of the handler: the upper-cased LLM response contains
`RELEVANT` or `POTENTIALLY_RELEVANT` (the second test is subsumed by the
first, as in the source). -/
def isRelevantResp (resp : String) : Bool :=
  let u := resp.data.map upChar
  containsPat "RELEVANT".data u || containsPat "POTENTIALLY_RELEVANT".data u

/-- `raw_event_handler`: the ack/nak decision as a function of the step
outcomes.  The Boolean result of `upsert_event` is received and discarded,
exactly as in the source, so `storeOk` cannot influence the result. -/
def rawEventHandler (decodeOk : Bool) (relevance : Option String) (category : Option String)
    (_storeOk : Bool) (publishOk : Bool) : AckResult :=
  if !decodeOk then .nak
  else
    match relevance with
    | none => .nak
    | some resp =>
      if !isRelevantResp resp then .ack
      else
        match category with
        | none => .nak
        | some _ => if publishOk then .ack else .nak

/-! ## Scheduler tick (scheduler/main.py, lines 65-90)

The sources table is modelled as the list of rows; `config` is carried in its
serialised JSON form (`json.dumps` of the JSON column, or the NULL fallback
string).  A tick for `source_id` looks the row up and publishes the message
built from the current row; a missing row is a no-op. -/

/-- A row of the `sources` table as the tick reads it. -/
structure DbSource where
  id : Nat
  name : String
  stype : String
  config : Option String
  isActive : Bool
deriving DecidableEq

/-- The wire message `PollSource` with `config_json` serialised. -/
structure PollSourceMsg where
  id : Nat
  name : String
  stype : String
  configJson : String
  isActive : Bool
deriving DecidableEq

/-- The NULL-config fallback string of `_publish_poll_event`. -/
def emptyJson : String := "\x7b\x7d"

/-- `_publish_poll_event`: fetch the fresh row, publish it if present. -/
def publishPollEvent (db : List DbSource) (sid : Nat) : Option PollSourceMsg :=
  match db.find? (fun s => s.id == sid) with
  | none => none
  | some s => some ⟨s.id, s.name, s.stype, s.config.getD emptyJson, s.isActive⟩

/-! ## Guardian (guardian/guardian_service.py lines 66-162, guardian/main.py lines 52-80)

Two distinct handlers exist.  `dlq_event_handler` consumes the broker
max-deliveries advisories: it parses the JSON advisory, fetches the failing
message by `stream_seq`, deletes it and `ack_sync`s — and dispatches nothing
to any alerter.  `dlq_handler` in `main.py` consumes the `dlq.>` subject: it
builds an alert from the message headers, dispatches it to every configured
alerter in sequence and plain-acks, and never fetches or deletes from a
source stream.  Each handler is modelled as the list of external actions it
performs, in order. -/

/-- Externally visible guardian actions. -/
inductive GAction where
  | fetchMsg (stream : String) (seq : Nat)
  | alertDispatch (alerter : String)
  | deleteMsg (stream : String) (seq : Nat)
  | ackSync
  | ackPlain
deriving DecidableEq

/-- Result of parsing the JSON advisory body, with its failure modes: a JSON
decode error is caught by the inner except clause (ack and return); a falsy
required field raises `ValueError`, which the inner clause does not list, so
the outer except swallows it and the advisory is never acknowledged. -/
inductive AdvisoryParse where
  | malformed
  | missingFields
  | parsed (stream : String) (consumer : String) (seq : Nat)
deriving DecidableEq

/-- Result of `js.get_msg`: a message, a `None`, or a raised exception. -/
inductive FetchResult where
  | fetchOk
  | fetchNone
  | fetchRaise
deriving DecidableEq

/-- `dlq_event_handler` together with `_process_failed_message`, as its action
trace. -/
def dlqEventHandler (adv : AdvisoryParse) (fr : FetchResult) : List GAction :=
  match adv with
  | .malformed => [.ackSync]
  | .missingFields => []
  | .parsed stream _ seq =>
    match fr with
    | .fetchOk => [.fetchMsg stream seq, .deleteMsg stream seq, .ackSync]
    | .fetchNone => [.fetchMsg stream seq, .ackSync]
    | .fetchRaise => [.fetchMsg stream seq]

/-- `dlq_handler` of guardian/main.py on its happy path: one dispatch per
configured alerter, then a plain ack. -/
def dlqHandler (alerters : List String) : List GAction :=
  alerters.map GAction.alertDispatch ++ [.ackPlain]

/-- Recogniser for alert dispatch actions. -/
def isAlertAction : GAction → Bool
  | .alertDispatch _ => true
  | _ => false

/-- Recogniser for stream deletion actions. -/
def isDeleteAction : GAction → Bool
  | .deleteMsg _ _ => true
  | _ => false

/-! ## Concrete instances used by witnesses and counterexamples -/

/-- A concrete ranker configuration: weights 3/5 and 2/5, an `Other` weight of
1/10, a 24-hour half-life and max score 1. -/
noncomputable def exRankerCfg : RankerConfig := ⟨3/5, 2/5, [("Other", 1/10)], 24, 1⟩

/-- A concrete ranker configuration whose `Other` weight is 1/2. -/
noncomputable def exCfg9 : RankerConfig := ⟨1, 1, [("Other", 1/2)], 24, 1⟩

/-- A stored record with a present but negative final score. -/
def exR1 : StoredRecord := ⟨"a", some (-1)⟩

/-- A stored record with final score 5. -/
def exR2 : StoredRecord := ⟨"b", some 5⟩

/-- A stored record with final score 3. -/
def exR3 : StoredRecord := ⟨"c", some 3⟩

/-- A concrete collection state in scroll order. -/
def exRankedColl : List StoredRecord := [exR1, exR2, exR3]

/-- A sources table holding one deactivated source. -/
def exInactiveDb : List DbSource := [⟨7, "feed", "web", some emptyJson, false⟩]

/-! ## Helper lemmas -/

theorem hexChars_take (l : List Nat) (k : Nat) :
    hexChars (l.take k) = (hexChars l).take (2 * k) := by
  induction l generalizing k with
  | nil => simp [hexChars]
  | cons b rest ih =>
    cases k with
    | zero => simp [hexChars]
    | succ k =>
      have h2 : 2 * (k + 1) = 2 * k + 1 + 1 := by ring
      simp only [List.take_succ_cons, hexChars, hexByte, h2, List.cons_append,
        List.nil_append, ih]

theorem mem_insertPhase_of_mem (sid : Nat) (x : Nat × String) (links : List ScrapedLink) :
    ∀ table : List (Nat × String), x ∈ table → x ∈ insertPhase sid table links := by
  induction links with
  | nil => intro t h; simpa [insertPhase] using h
  | cons l ls ih =>
    intro t h
    simp only [insertPhase, List.foldl_cons] at *
    apply ih
    by_cases hm : (sid, l.href) ∈ t
    · simpa [hm] using h
    · simp only [hm, if_false, List.mem_append]
      exact Or.inl h

theorem mem_insertPhase_self (sid : Nat) (links : List ScrapedLink) :
    ∀ (table : List (Nat × String)) (l : ScrapedLink), l ∈ links →
      (sid, l.href) ∈ insertPhase sid table links := by
  induction links with
  | nil => intro t l h; simp at h
  | cons a as ih =>
    intro t l h
    rcases List.mem_cons.mp h with rfl | h2
    · have hstep : (sid, l.href) ∈ (if (sid, l.href) ∈ t then t else t ++ [(sid, l.href)]) := by
        by_cases hm : (sid, l.href) ∈ t <;> simp [hm]
      simp only [insertPhase, List.foldl_cons]
      exact mem_insertPhase_of_mem sid _ as _ hstep
    · simp only [insertPhase, List.foldl_cons]
      exact ih _ l h2

/-! ## Claim theorems -/

/-- C2: for every `original_id` string, the physical key produced by
`_hash_id` equals the first 16 bytes of the SHA-256 hash of the UTF-8
encoding, formatted as a canonical hyphenated 128-bit identifier, and two
equal ids always map to the same physical record key. -/
theorem hash_id_matches_spec (s t : String) :
    hashId s = specPhysicalKey s ∧ (s = t → hashId s = hashId t) := by
  constructor
  · unfold hashId specPhysicalKey
    rw [hexChars_take]
    generalize hexChars (sha256Bytes (utf8Bytes s)) = F
    norm_num [List.take_take, List.drop_take]
  · intro h; rw [h]

theorem hash_id_matches_spec_witness :
    hashId "evt-42" = specPhysicalKey "evt-42" ∧ hashId "evt-42" = hashId "evt-42" :=
  ⟨(hash_id_matches_spec "evt-42" "evt-42").1, (hash_id_matches_spec "evt-42" "evt-42").2 rfl⟩

/-- C1 counterexample: a payload whose `content` is non-empty but whose `id`
is missing is rejected by `upsert_event` with `False` and no confirmed
write, even though the server would acknowledge an upsert; the claim as
stated demands an embedding recomputation and an acked vector write for
every payload with non-empty content. -/
theorem upsert_event_claim_counterexample :
    hasContent ⟨none, some "hello"⟩ = true ∧
    upsertEvent (fun _ => [1]) 1 ⟨none, some "hello"⟩ true .raised true = (false, []) := by
  exact ⟨rfl, rfl⟩

/-- C1 (amended): for every payload carrying a valid id (present, non-empty
and not the literal N/A), `upsert_event` behaves as claimed: non-empty
content gives a full vector write of the recomputed embedding under the
physical key, with success exactly when the server acks; absent or empty
content with a COMPLETED `set_payload` gives an in-place payload patch and
no vector write; otherwise a stub record with a zero-vector of the model
dimension is written, with success exactly when the server acks. -/
theorem upsert_event_behavior (encode : String → List ℚ) (n : Nat) (ev : UpsertInput)
    (uOk : Bool) (sp : SetPayloadOutcome) (sOk : Bool) (eid : String)
    (hid : validEventId ev = some eid) :
    (∀ c, ev.content = some c → c ≠ "" →
        upsertEvent encode n ev uOk sp sOk =
          (uOk, if uOk then [.fullWrite (hashId eid) (encode c) eid] else [])) ∧
    (hasContent ev = false → sp = .completed →
        upsertEvent encode n ev uOk sp sOk = (true, [.payloadPatch (hashId eid)])) ∧
    (hasContent ev = false → sp ≠ .completed →
        upsertEvent encode n ev uOk sp sOk =
          (sOk, if sOk then [.stubWrite (hashId eid) (List.replicate n 0) eid] else [])) := by
  refine ⟨?_, ?_, ?_⟩
  · intro c hc hne
    cases uOk <;> simp [upsertEvent, hid, hc, hne]
  · intro hnc hsp
    cases hcc : ev.content with
    | none => simp [upsertEvent, hid, hcc, upsertPatchPath, hsp]
    | some c =>
      have hce : c = "" := by
        by_contra hne
        simp [hasContent, hcc, hne] at hnc
      subst hce
      simp [upsertEvent, hid, hcc, upsertPatchPath, hsp]
  · intro hnc hsp
    have hpatch : upsertPatchPath (hashId eid) eid n sp sOk =
        (sOk, if sOk then [.stubWrite (hashId eid) (List.replicate n 0) eid] else []) := by
      cases sp with
      | completed => exact absurd rfl hsp
      | otherStatus => cases sOk <;> simp [upsertPatchPath]
      | raised => cases sOk <;> simp [upsertPatchPath]
    cases hcc : ev.content with
    | none => simp [upsertEvent, hid, hcc, hpatch]
    | some c =>
      have hce : c = "" := by
        by_contra hne
        simp [hasContent, hcc, hne] at hnc
      subst hce
      simp [upsertEvent, hid, hcc, hpatch]

theorem upsert_event_behavior_witness :
    validEventId ⟨some "e1", some "hello"⟩ = some "e1" ∧
    upsertEvent (fun _ => [1]) 3 ⟨some "e1", some "hello"⟩ true .completed true =
      (true, [.fullWrite (hashId "e1") [1] "e1"]) := by
  refine ⟨rfl, ?_⟩
  have h := (upsert_event_behavior (fun _ => [1]) 3 ⟨some "e1", some "hello"⟩ true .completed true
    "e1" rfl).1 "hello" rfl (by decide)
  simpa using h

/-- C3: the final score is the configured weighted combination of importance
and recency, recency decays as `max_score * (1/2) ^ (dt / half_life_seconds)`
with `dt = now - event_time`, recency equals `max_score` at `dt = 0`, and
equals `max_score / 2` at `dt = half_life_seconds` (for a non-zero
half-life). -/
theorem ranker_score_formula (cfg : RankerConfig) (now : ℝ) (cats : List String)
    (ts : Option ℝ) (hhl : halfLifeSeconds cfg ≠ 0) :
    (rankEventScores cfg now cats ts).2.2 =
      cfg.importanceWeight * calculateImportanceScore cfg cats +
        cfg.recencyWeight * calculateRecencyScore cfg now ts ∧
    calculateRecencyScore cfg now (some now) = cfg.maxScore ∧
    calculateRecencyScore cfg now (some (now - halfLifeSeconds cfg)) = cfg.maxScore / 2 := by
  refine ⟨rfl, ?_, ?_⟩
  · simp [calculateRecencyScore, Real.rpow_zero]
  · simp only [calculateRecencyScore, Option.getD_some, sub_sub_cancel]
    rw [div_self hhl, Real.rpow_one]
    ring

theorem ranker_score_formula_witness :
    halfLifeSeconds exRankerCfg ≠ 0 ∧
    ((rankEventScores exRankerCfg 0 [] (some 0)).2.2 =
      exRankerCfg.importanceWeight * calculateImportanceScore exRankerCfg [] +
        exRankerCfg.recencyWeight * calculateRecencyScore exRankerCfg 0 (some 0) ∧
     calculateRecencyScore exRankerCfg 0 (some 0) = exRankerCfg.maxScore ∧
     calculateRecencyScore exRankerCfg 0 (some (0 - halfLifeSeconds exRankerCfg)) =
       exRankerCfg.maxScore / 2) := by
  have hhl : halfLifeSeconds exRankerCfg ≠ 0 := by norm_num [halfLifeSeconds, exRankerCfg]
  exact ⟨hhl, ranker_score_formula exRankerCfg 0 [] (some 0) hhl⟩

/-- C4 counterexample: on the concrete collection `[exR1, exR2, exR3]` with
limit 1, the call returns only `[exR2]`, although `exR1` and `exR3` both have
`final_score` present; the server-side filter also demands a non-negative
score and the scroll truncates to the limit before sorting, so the claimed
output (all records with the field present, sorted descending) is wrong. -/
theorem list_ranked_events_claim_counterexample :
    listRankedEvents exRankedColl 1 = [exR2] ∧
    exR1.finalScore.isSome = true ∧ exR1 ∉ listRankedEvents exRankedColl 1 ∧
    exR3.finalScore.isSome = true ∧ exR3 ∉ listRankedEvents exRankedColl 1 := by
  decide

/-- C4 (amended): `list_ranked_events` returns the first `limit` records in
scroll order whose `final_score` is present and non-negative, sorted by
`final_score` descending; every returned record comes from the collection and
carries a present, non-negative score, and at most `limit` records are
returned. -/
theorem list_ranked_events_behavior (coll : List StoredRecord) (limit : Nat) :
    (listRankedEvents coll limit).Perm ((coll.filter rankedFilter).take limit) ∧
    List.Sorted scoreGE (listRankedEvents coll limit) ∧
    (∀ p ∈ listRankedEvents coll limit, p ∈ coll ∧ ∃ x, p.finalScore = some x ∧ 0 ≤ x) ∧
    (listRankedEvents coll limit).length ≤ limit := by
  refine ⟨List.perm_insertionSort _ _, List.sorted_insertionSort _ _, ?_, ?_⟩
  · intro p hp
    have hp1 : p ∈ (coll.filter rankedFilter).take limit :=
      (List.perm_insertionSort scoreGE _).subset hp
    have hp2 : p ∈ coll.filter rankedFilter := List.take_subset _ _ hp1
    obtain ⟨hpc, hpf⟩ := List.mem_filter.mp hp2
    refine ⟨hpc, ?_⟩
    cases hfs : p.finalScore with
    | none => simp [rankedFilter, hfs] at hpf
    | some x =>
      refine ⟨x, rfl, ?_⟩
      have := hpf
      simp [rankedFilter, hfs] at this
      exact this
  · calc (listRankedEvents coll limit).length
        = ((coll.filter rankedFilter).take limit).length :=
          (List.perm_insertionSort scoreGE _).length_eq
      _ ≤ limit := List.length_take_le _ _

/-- C9 counterexample: with a configured `Other` weight of 1/2, an empty
category sequence yields importance 0, not the `Other` weight. -/
theorem importance_empty_claim_counterexample :
    calculateImportanceScore exCfg9 [] = 0 ∧ otherScore exCfg9 = 1 / 2 ∧ (0 : ℝ) ≠ 1 / 2 := by
  refine ⟨rfl, ?_, by norm_num⟩
  simp [otherScore, exCfg9, List.lookup]

/-- C9 (amended): an empty category sequence yields `importance_score = 0`;
the configured `Other` weight is the fallback applied to each category that
is absent from the table, not to the empty sequence. -/
theorem importance_score_empty_and_fallback (cfg : RankerConfig) (c : String)
    (hc : List.lookup c cfg.categoryScores = none) :
    calculateImportanceScore cfg [] = 0 ∧
    calculateImportanceScore cfg [c] = otherScore cfg := by
  refine ⟨rfl, ?_⟩
  simp [calculateImportanceScore, hc]

theorem importance_score_empty_and_fallback_witness :
    List.lookup "Quantum" exCfg9.categoryScores = none ∧
    (calculateImportanceScore exCfg9 [] = 0 ∧
     calculateImportanceScore exCfg9 ["Quantum"] = otherScore exCfg9) := by
  have h : List.lookup "Quantum" exCfg9.categoryScores = none := by
    simp [exCfg9, List.lookup]
  exact ⟨h, importance_score_empty_and_fallback exCfg9 "Quantum" h⟩

/-- C10: a timestamp that fails to parse makes `calculate_recency_score` fall
back to `event_time = now`, so the time difference is zero and the score is
exactly `max_score` (the two consecutive clock reads of the source are
modelled as the same instant). -/
theorem recency_score_parse_failure (cfg : RankerConfig) (now : ℝ) :
    calculateRecencyScore cfg now none = cfg.maxScore := by
  simp [calculateRecencyScore, Real.rpow_zero]

/-- C5: the handler publishes no raw event, ever.  The second pass re-queries
the dedup table after the batch commit of the first pass, and by then every
scraped candidate pair is in the table, so the publish filter keeps nothing.
The conjunct evaluates the handler at a concrete failing input: one unseen
candidate is inserted into the table yet nothing is emitted, where the claim
demands an emitted RawEvent for it. -/
theorem connector_publishes_nothing :
    (∀ (sid : Nat) (srcName : String) (table : List (Nat × String))
        (cands : List ScrapedLink), (pollSourceHandler sid srcName table cands).2 = []) ∧
    pollSourceHandler 1 "news" []
        [⟨"aaaaaaaaaaaaaaaaaaaaaaaaaaaaaa", "http://x/1"⟩] =
      ([(1, "http://x/1")], []) := by
  constructor
  · intro sid srcName table cands
    simp only [pollSourceHandler, publishPhase]
    have hfil : (scrapeFilter cands).filter
        (fun l => decide ((sid, l.href) ∉ insertPhase sid table (scrapeFilter cands))) = [] := by
      rw [List.filter_eq_nil_iff]
      intro l hl
      simp only [decide_eq_true_eq, not_not]
      exact mem_insertPhase_self sid (scrapeFilter cands) table l hl
    rw [hfil, List.map_nil]
  · decide

/-- C6 counterexample: a message whose store write fails (`upsert_event`
returns `False`) while decoding, the LLM calls and the publish succeed is
still acknowledged, whereas the claim demands a nak on a store write that
does not succeed. -/
theorem filter_handler_claim_counterexample :
    rawEventHandler true (some "RELEVANT") (some "news") false true = .ack := by
  decide

/-- C6 (amended): the ack/nak decision of `raw_event_handler` is independent
of the Boolean returned by the vector-store upsert (whose failures are
swallowed inside `upsert_event`), and the handler acks exactly when decoding
succeeded, the relevance call returned, and either the response was deemed
irrelevant (drop) or the category call and the publish both succeeded. -/
theorem filter_handler_ack_conditions (d : Bool) (r c : Option String) (s p : Bool) :
    rawEventHandler d r c s p = rawEventHandler d r c true p ∧
    (rawEventHandler d r c s p = .ack ↔
      (d = true ∧ ∃ resp, r = some resp ∧
        (isRelevantResp resp = true → c.isSome = true ∧ p = true))) := by
  refine ⟨rfl, ?_⟩
  cases d with
  | false => simp [rawEventHandler]
  | true =>
    cases r with
    | none => simp [rawEventHandler]
    | some resp =>
      cases hrel : isRelevantResp resp with
      | false =>
        constructor
        · intro _
          exact ⟨rfl, resp, rfl, fun hrt => absurd hrt (by simp [hrel])⟩
        · intro _
          simp [rawEventHandler, hrel]
      | true =>
        cases c with
        | none => simp [rawEventHandler, hrel]
        | some cat => cases p <;> simp [rawEventHandler, hrel]

/-- C7 counterexample: a tick for a source row that exists but is
deactivated still publishes a `poll.source` message (carrying
`is_active = false`), whereas the claim calls the tick a no-op. -/
theorem scheduler_tick_claim_counterexample :
    (⟨7, "feed", "web", some emptyJson, false⟩ : DbSource).isActive = false ∧
    publishPollEvent exInactiveDb 7 = some ⟨7, "feed", "web", emptyJson, false⟩ := by
  decide

/-- C7 (amended): a scheduler tick fetches the current source row and
publishes a message with `id, name, type, config_json, is_active` taken from
that row whenever the row exists — including a deactivated row, whose
message carries `is_active = false`; only a deleted (absent) row makes the
tick a no-op. -/
theorem scheduler_tick_behavior (db : List DbSource) (sid : Nat) :
    (db.find? (fun s => s.id == sid) = none → publishPollEvent db sid = none) ∧
    (∀ s, db.find? (fun s => s.id == sid) = some s →
      publishPollEvent db sid = some ⟨s.id, s.name, s.stype, s.config.getD emptyJson, s.isActive⟩) := by
  constructor
  · intro h
    simp [publishPollEvent, h]
  · intro s h
    simp [publishPollEvent, h]

theorem scheduler_tick_behavior_witness :
    publishPollEvent [] 0 = none ∧
    publishPollEvent exInactiveDb 7 = some ⟨7, "feed", "web", emptyJson, false⟩ :=
  ⟨(scheduler_tick_behavior [] 0).1 rfl,
   (scheduler_tick_behavior exInactiveDb 7).2 ⟨7, "feed", "web", some emptyJson, false⟩ rfl⟩

/-- C8 counterexample: on a well-formed advisory whose failing message is
fetched, the advisory consumer fetches, deletes and ack_syncs but performs
zero alert dispatches, whereas the claim has the same handler also dispatch
the alert to every configured alerter. -/
theorem guardian_advisory_claim_counterexample :
    dlqEventHandler (.parsed "raw-events-stream" "c1" 5) .fetchOk =
      [.fetchMsg "raw-events-stream" 5, .deleteMsg "raw-events-stream" 5, .ackSync] ∧
    (dlqEventHandler (.parsed "raw-events-stream" "c1" 5) .fetchOk).countP isAlertAction = 0 := by
  decide

/-- C8 (amended): the advisory consumer (`dlq_event_handler`) fetches the
failing message by `stream_seq`, deletes it from its stream and `ack_sync`s
the advisory, and never dispatches an alert; alert dispatch lives in the
separate `dlq.>` handler (`dlq_handler`), which sends the structured alert
to every configured alerter in sequence, plain-acks, and never deletes from
a source stream. -/
theorem guardian_handlers_behavior (stream consumer : String) (seq : Nat)
    (alerters : List String) :
    dlqEventHandler (.parsed stream consumer seq) .fetchOk =
      [.fetchMsg stream seq, .deleteMsg stream seq, .ackSync] ∧
    (∀ adv fr, (dlqEventHandler adv fr).countP isAlertAction = 0) ∧
    dlqHandler alerters = alerters.map GAction.alertDispatch ++ [.ackPlain] ∧
    (dlqHandler alerters).countP isDeleteAction = 0 ∧
    (dlqHandler alerters).countP isAlertAction = alerters.length := by
  refine ⟨rfl, ?_, rfl, ?_, ?_⟩
  · intro adv fr
    cases adv <;> cases fr <;>
      simp [dlqEventHandler, isAlertAction, List.countP_cons, List.countP_nil]
  · simp [dlqHandler, List.countP_append, List.countP_cons, List.countP_nil, isDeleteAction,
      List.countP_map, Function.comp]
  · simp [dlqHandler, List.countP_append, List.countP_cons, List.countP_nil, isAlertAction,
      List.countP_map, Function.comp, List.countP_true]
